import Mathlib

/-!
Verification of the Liquidity Event Pipeline of the reth-exex-liquidity
repository against its natural-language specification.

This file is a shallow embedding of the relevant Rust code:

* src/src/pool_tracker.rs  — the block-synchronized pool whitelist tracker;
* src/src/main.rs          — the chain processor (stream sequencing, V2 swap
                             delta derivation, slot0 resync recording/sorting,
                             acknowledgement of notifications);
* src/src/events.rs        — the V4 ModifyLiquidity 256-to-128-bit narrowing;
* src/src/nats_client.rs   — the whitelist ingestor message conversion;
* src/src/types.rs         — the ControlMessage wire enum.

Modelling conventions:

* 20-byte addresses and 32-byte pool ids are modelled as natural numbers
  (the big-endian value of the byte array).  Equality of fixed-width byte
  arrays corresponds to equality of the values, and byte-lexicographic
  order on fixed-width arrays corresponds to numeric order, so both the
  HashMap/HashSet membership structure and the hex-string sort keys are
  represented faithfully.
* HashMap is modelled as an association list, HashSet as a list of keys.
  The tracker only inserts a key after checking it is absent, so the lists
  never hold duplicate keys; lookup finds the first matching entry and
  removal removes it, which is exactly the unique-key map behaviour.
* Rust u64 / u256 values are Nat with explicit mod 2^64 where the code
  wraps; i256 / i128 values are Int with the explicit conversion bounds of
  the code (I256::MAX = 2^255 - 1, i128::MAX = 2^127 - 1).
-/

/-- A 20-byte contract address, as its big-endian numeric value. -/
abbrev Address := Nat

/-- A 32-byte V4 pool id, as its big-endian numeric value. -/
abbrev B32 := Nat

/-- Pool identifier: contract address for V2/V3, opaque bytes32 pool id for
V4 (src/src/types.rs, enum PoolIdentifier). -/
inductive PoolIdentifier where
  | Address (addr : Address)
  | PoolId (id : B32)
deriving DecidableEq, Repr

/-- Protocol tag (src/src/types.rs, enum Protocol). -/
inductive Protocol where
  | UniswapV2
  | UniswapV3
  | UniswapV4
deriving DecidableEq, Repr

/-- Update kind (src/src/types.rs, enum UpdateType). -/
inductive UpdateType where
  | Swap
  | Mint
  | Burn
deriving DecidableEq, Repr

/-- Pool metadata from the whitelist (src/src/types.rs, struct PoolMetadata). -/
structure PoolMetadata where
  pool_id : PoolIdentifier
  token0 : Address
  token1 : Address
  protocol : Protocol
  factory : Address
  tick_spacing : Option Int
  fee : Option Nat
deriving DecidableEq, Repr

/-- Differential whitelist update operations
(src/src/pool_tracker.rs, enum WhitelistUpdate). -/
inductive WhitelistUpdate where
  | Add (pools : List PoolMetadata)
  | Remove (pool_ids : List PoolIdentifier)
  | Replace (pools : List PoolMetadata)
deriving DecidableEq, Repr

/-- Uniswap V4 PoolManager singleton contract address
(src/src/pool_tracker.rs, constant UNISWAP_V4_POOL_MANAGER,
0x000000000004444c5dc75cb358380d2e3de08a90). -/
def UNISWAP_V4_POOL_MANAGER : Address := 0x000000000004444c5dc75cb358380d2e3de08a90

/-- The tracker state (src/src/pool_tracker.rs, struct PoolTracker).
HashMaps are association lists, HashSets are key lists, the VecDeque of
pending updates is a list with push_back at the right end. -/
structure PoolTracker where
  pools_by_address : List (Address × PoolMetadata)
  pools_by_id : List (B32 × PoolMetadata)
  tracked_addresses : List Address
  tracked_pool_ids : List B32
  pending_updates : List WhitelistUpdate
  in_block : Bool
  v2_count : Nat
  v3_count : Nat
  v4_count : Nat
deriving DecidableEq, Repr

namespace PoolTracker

/-- PoolTracker::new. -/
def new : PoolTracker :=
  { pools_by_address := []
    pools_by_id := []
    tracked_addresses := []
    tracked_pool_ids := []
    pending_updates := []
    in_block := false
    v2_count := 0
    v3_count := 0
    v4_count := 0 }

/-- First-match association-list lookup (HashMap::get / HashMap::remove's
returned value; keys are unique in every reachable tracker state). -/
def lookupKey : List (Nat × PoolMetadata) → Nat → Option PoolMetadata
  | [], _ => none
  | (k, v) :: rest, a => if k = a then some v else lookupKey rest a

/-- Remove the first entry with the given key (HashMap::remove; keys are
unique in every reachable tracker state). -/
def removeKey : List (Nat × PoolMetadata) → Nat → List (Nat × PoolMetadata)
  | [], _ => []
  | (k, v) :: rest, a => if k = a then rest else (k, v) :: removeKey rest a

/-- HashSet::remove: drop the element from the key list. -/
def removeElem (l : List Nat) (a : Nat) : List Nat :=
  l.filter (fun x => x ≠ a)

/-- The duplicate check at the top of the add_pools loop body. -/
def alreadyTracked (t : PoolTracker) (pid : PoolIdentifier) : Bool :=
  match pid with
  | PoolIdentifier.Address addr => decide (addr ∈ t.tracked_addresses)
  | PoolIdentifier.PoolId id => decide (id ∈ t.tracked_pool_ids)

/-- Increment the per-protocol statistics counter (add_pools). -/
def incCount (t : PoolTracker) (p : Protocol) : PoolTracker :=
  match p with
  | Protocol.UniswapV2 => { t with v2_count := t.v2_count + 1 }
  | Protocol.UniswapV3 => { t with v3_count := t.v3_count + 1 }
  | Protocol.UniswapV4 => { t with v4_count := t.v4_count + 1 }

/-- Decrement the per-protocol statistics counter (remove_pools). -/
def decCount (t : PoolTracker) (p : Protocol) : PoolTracker :=
  match p with
  | Protocol.UniswapV2 => { t with v2_count := t.v2_count - 1 }
  | Protocol.UniswapV3 => { t with v3_count := t.v3_count - 1 }
  | Protocol.UniswapV4 => { t with v4_count := t.v4_count - 1 }

/-- One iteration of the loop body of PoolTracker::add_pools
(src/src/pool_tracker.rs lines 138-176): skip if already tracked, insert
into the matching map and set, for a V4 opaque key additionally ensure the
PoolManager address is in tracked_addresses, then bump the counter. -/
def addOnePool (t : PoolTracker) (pool : PoolMetadata) : PoolTracker :=
  if t.alreadyTracked pool.pool_id then t
  else
    let t1 :=
      match pool.pool_id with
      | PoolIdentifier.Address addr =>
          { t with
            tracked_addresses := addr :: t.tracked_addresses
            pools_by_address := (addr, pool) :: t.pools_by_address }
      | PoolIdentifier.PoolId id =>
          let t2 :=
            { t with
              tracked_pool_ids := id :: t.tracked_pool_ids
              pools_by_id := (id, pool) :: t.pools_by_id }
          if UNISWAP_V4_POOL_MANAGER ∈ t2.tracked_addresses then t2
          else { t2 with tracked_addresses := UNISWAP_V4_POOL_MANAGER :: t2.tracked_addresses }
    incCount t1 pool.protocol

/-- PoolTracker::add_pools. -/
def add_pools (t : PoolTracker) (pools : List PoolMetadata) : PoolTracker :=
  pools.foldl addOnePool t

/-- One iteration of the loop body of PoolTracker::remove_pools
(src/src/pool_tracker.rs lines 185-215): if the map holds the key, remove
the entry from the map and the key from the set and decrement the counter
of the removed entry's protocol. -/
def removeOnePool (t : PoolTracker) (pid : PoolIdentifier) : PoolTracker :=
  match pid with
  | PoolIdentifier.Address addr =>
      match lookupKey t.pools_by_address addr with
      | none => t
      | some pool =>
          decCount
            { t with
              pools_by_address := removeKey t.pools_by_address addr
              tracked_addresses := removeElem t.tracked_addresses addr }
            pool.protocol
  | PoolIdentifier.PoolId id =>
      match lookupKey t.pools_by_id id with
      | none => t
      | some pool =>
          decCount
            { t with
              pools_by_id := removeKey t.pools_by_id id
              tracked_pool_ids := removeElem t.tracked_pool_ids id }
            pool.protocol

/-- PoolTracker::remove_pools. -/
def remove_pools (t : PoolTracker) (pool_ids : List PoolIdentifier) : PoolTracker :=
  pool_ids.foldl removeOnePool t

/-- PoolTracker::replace_all: clear every structure and counter, then add. -/
def replace_all (t : PoolTracker) (pools : List PoolMetadata) : PoolTracker :=
  add_pools
    { t with
      pools_by_address := []
      pools_by_id := []
      tracked_addresses := []
      tracked_pool_ids := []
      v2_count := 0
      v3_count := 0
      v4_count := 0 }
    pools

/-- Dispatch of one dequeued update inside apply_pending_updates. -/
def applyUpdate (t : PoolTracker) : WhitelistUpdate → PoolTracker
  | WhitelistUpdate.Add pools => t.add_pools pools
  | WhitelistUpdate.Remove pool_ids => t.remove_pools pool_ids
  | WhitelistUpdate.Replace pools => t.replace_all pools

/-- PoolTracker::apply_pending_updates: the while-let pop_front loop.  Since
add_pools, remove_pools and replace_all never touch pending_updates, the
loop is the left fold of the dispatch over the queued updates in FIFO
order, with the queue left empty (the early return on an empty queue is
the identity and needs no separate case). -/
def apply_pending_updates (t : PoolTracker) : PoolTracker :=
  t.pending_updates.foldl applyUpdate { t with pending_updates := [] }

/-- PoolTracker::begin_block. -/
def begin_block (t : PoolTracker) : PoolTracker :=
  { t with in_block := true }

/-- PoolTracker::end_block. -/
def end_block (t : PoolTracker) : PoolTracker :=
  apply_pending_updates { t with in_block := false }

/-- PoolTracker::queue_update: push_back, then apply immediately when not
inside a block. -/
def queue_update (t : PoolTracker) (update : WhitelistUpdate) : PoolTracker :=
  let t1 := { t with pending_updates := t.pending_updates ++ [update] }
  if t1.in_block then t1 else apply_pending_updates t1

/-- PoolTracker::is_tracked_address. -/
def is_tracked_address (t : PoolTracker) (address : Address) : Bool :=
  decide (address ∈ t.tracked_addresses)

/-- PoolTracker::is_tracked_pool_id. -/
def is_tracked_pool_id (t : PoolTracker) (pool_id : B32) : Bool :=
  decide (pool_id ∈ t.tracked_pool_ids)

/-- PoolTracker::has_pending_updates. -/
def has_pending_updates (t : PoolTracker) : Bool :=
  decide (t.pending_updates ≠ [])

end PoolTracker

/-- Statistics snapshot (src/src/pool_tracker.rs, struct PoolTrackerStats). -/
structure PoolTrackerStats where
  total_pools : Nat
  v2_pools : Nat
  v3_pools : Nat
  v4_pools : Nat
deriving DecidableEq, Repr

/-- PoolTracker::stats. -/
def PoolTracker.stats (t : PoolTracker) : PoolTrackerStats :=
  { total_pools := t.pools_by_address.length + t.pools_by_id.length
    v2_pools := t.v2_count
    v3_pools := t.v3_count
    v4_pools := t.v4_count }

/-- The three tracker entry points the rest of the program calls: the
ingestor task calls queue_update, the chain processor brackets each block
with begin_block and end_block. -/
inductive TrackerOp where
  | queue (update : WhitelistUpdate)
  | begin
  | finish
deriving DecidableEq, Repr

/-- Run a sequence of tracker operations. -/
def runOps (t : PoolTracker) (ops : List TrackerOp) : PoolTracker :=
  ops.foldl
    (fun s op =>
      match op with
      | TrackerOp.queue u => s.queue_update u
      | TrackerOp.begin => s.begin_block
      | TrackerOp.finish => s.end_block)
    t

/-- The four membership structures of the tracker, bundled so that
"membership is unchanged" is a single equation. -/
def membershipView (t : PoolTracker) :
    List (Address × PoolMetadata) × List (B32 × PoolMetadata) × List Address × List B32 :=
  (t.pools_by_address, t.pools_by_id, t.tracked_addresses, t.tracked_pool_ids)

/-- A pool entry with the given identifier and protocol and zeroed token and
factory fields, as the whitelist ingestor builds them. -/
def mkPool (pid : PoolIdentifier) (p : Protocol) : PoolMetadata :=
  { pool_id := pid
    token0 := 0
    token1 := 0
    protocol := p
    factory := 0
    tick_spacing := none
    fee := none }

/-! ## Per-protocol counter consistency (stats) -/

/-- Number of stored pool entries with the given protocol. -/
def protoCount (p : Protocol) (l : List (Nat × PoolMetadata)) : Nat :=
  l.countP (fun e => decide (e.2.protocol = p))

/-- The incremental per-protocol counters agree with the stored entries. -/
def countsOK (t : PoolTracker) : Prop :=
  t.v2_count = protoCount Protocol.UniswapV2 t.pools_by_address
      + protoCount Protocol.UniswapV2 t.pools_by_id ∧
  t.v3_count = protoCount Protocol.UniswapV3 t.pools_by_address
      + protoCount Protocol.UniswapV3 t.pools_by_id ∧
  t.v4_count = protoCount Protocol.UniswapV4 t.pools_by_address
      + protoCount Protocol.UniswapV4 t.pools_by_id

/-! ## The V4 PoolManager address invariant -/

/-- A whitelisted pool whose identifier is not the PoolManager contract
address itself (an address-keyed entry at the manager address is the one
way remove_pools can evict the manager from tracked_addresses). -/
def goodPool (pool : PoolMetadata) : Prop :=
  pool.pool_id ≠ PoolIdentifier.Address UNISWAP_V4_POOL_MANAGER

/-- An update none of whose added pools is keyed at the manager address. -/
def goodUpdate : WhitelistUpdate → Prop
  | WhitelistUpdate.Add pools => ∀ pool ∈ pools, goodPool pool
  | WhitelistUpdate.Remove _ => True
  | WhitelistUpdate.Replace pools => ∀ pool ∈ pools, goodPool pool

/-- A tracker operation whose queued update, if any, is good. -/
def goodOp : TrackerOp → Prop
  | TrackerOp.queue u => goodUpdate u
  | TrackerOp.begin => True
  | TrackerOp.finish => True

/-- The manager-address invariant: the manager never appears as a key of
the address-keyed pool map, and as soon as any opaque-key pool is stored
the manager address is tracked. -/
def managerInv (t : PoolTracker) : Prop :=
  UNISWAP_V4_POOL_MANAGER ∉ t.pools_by_address.map Prod.fst ∧
  (t.pools_by_id ≠ [] → UNISWAP_V4_POOL_MANAGER ∈ t.tracked_addresses)

/-- The invariant strengthened with goodness of the queued updates, which
is what survives the queue/apply cycle. -/
def managerInvQ (t : PoolTracker) : Prop :=
  managerInv t ∧ ∀ u ∈ t.pending_updates, goodUpdate u

/-- The update sequence refuting the unrestricted manager invariant: add a
pool keyed at the PoolManager address itself, add a V4 opaque-key pool,
then remove the manager-address pool. -/
def c9_ops : List TrackerOp :=
  [TrackerOp.queue (WhitelistUpdate.Add
      [mkPool (PoolIdentifier.Address UNISWAP_V4_POOL_MANAGER) Protocol.UniswapV2]),
   TrackerOp.queue (WhitelistUpdate.Add
      [mkPool (PoolIdentifier.PoolId 1) Protocol.UniswapV4]),
   TrackerOp.queue (WhitelistUpdate.Remove
      [PoolIdentifier.Address UNISWAP_V4_POOL_MANAGER])]

/-! ## Stream sequence numbers -/

/-- The u64 modulus. -/
def U64_MOD : Nat := 2 ^ 64

/-- next_stream_seq (src/src/main.rs lines 958-962): the u64 counter is
bumped with wrapping_add(1) and the new value is returned.  Every frame
helper (send_begin_block, send_pool_update, send_end_block,
send_reorg_start, send_reorg_complete) calls it exactly once on the shared
counter, so the k-th emitted sequenced frame carries the k-th value. -/
def next_stream_seq (counter : Nat) : Nat := (counter + 1) % U64_MOD

/-- The counter value after k calls of next_stream_seq starting from the
initial value 0 of the chain processor; frame number k (counting from 1)
carries frameSeq k. -/
def frameSeq : Nat → Nat
  | 0 => 0
  | k + 1 => next_stream_seq (frameSeq k)

/-! ## The slot0 resync list of a reorg batch -/

/-- Pool update payload (src/src/types.rs, enum PoolUpdate). -/
inductive PoolUpdate where
  | V2Swap (amount0 amount1 : Int)
  | V2Liquidity (amount0 amount1 : Int)
  | V3Swap (sqrt_price_x96 : Nat) (liquidity : Nat) (tick : Int)
  | V3Liquidity (tick_lower tick_upper : Int) (liquidity_delta : Int)
  | V4Swap (sqrt_price_x96 : Nat) (liquidity : Nat) (tick : Int)
  | V4Liquidity (tick_lower tick_upper : Int) (liquidity_delta : Int)
deriving DecidableEq, Repr

/-- Message envelope (src/src/types.rs, struct PoolUpdateMessage). -/
structure PoolUpdateMessage where
  pool_id : PoolIdentifier
  protocol : Protocol
  update_type : UpdateType
  block_number : Nat
  block_timestamp : Nat
  tx_index : Nat
  log_index : Nat
  is_revert : Bool
  update : PoolUpdate
deriving DecidableEq, Repr

/-- pool_identifier_eq (src/src/main.rs lines 939-945). -/
def pool_identifier_eq : PoolIdentifier → PoolIdentifier → Bool
  | PoolIdentifier.Address a, PoolIdentifier.Address b => a == b
  | PoolIdentifier.PoolId a, PoolIdentifier.PoolId b => a == b
  | _, _ => false

/-- The matches! test inside maybe_record_slot0_resync_pool. -/
def needs_resync : PoolUpdate → Bool
  | PoolUpdate.V3Swap _ _ _ => true
  | PoolUpdate.V4Swap _ _ _ => true
  | _ => false

/-- maybe_record_slot0_resync_pool (src/src/main.rs lines 912-937): record
the pool identifier of a revert V3Swap/V4Swap update, skipping duplicates;
the mutable Vec is threaded explicitly. -/
def maybe_record_slot0_resync_pool (update : PoolUpdateMessage)
    (slot0_resync_required : List PoolIdentifier) : List PoolIdentifier :=
  if ! update.is_revert then slot0_resync_required
  else if ! needs_resync update.update then slot0_resync_required
  else if slot0_resync_required.any
      (fun existing => pool_identifier_eq existing update.pool_id) then
    slot0_resync_required
  else slot0_resync_required ++ [update.pool_id]

/-- pool_identifier_sort_key (src/src/main.rs lines 951-956).  The source
key is the String a:<hex addr> or p:<hex id>; for fixed-width byte arrays
hex encoding is order-isomorphic to the numeric value and the tag letter a
sorts before p, so String order on the keys is the lexicographic order on
the pair (variant tag, numeric value). -/
def pool_identifier_sort_key : PoolIdentifier → Nat × Nat
  | PoolIdentifier.Address addr => (0, addr)
  | PoolIdentifier.PoolId id => (1, id)

/-- The total order induced by pool_identifier_sort_key. -/
def sortKeyLE (x y : PoolIdentifier) : Prop :=
  (pool_identifier_sort_key x).1 < (pool_identifier_sort_key y).1 ∨
    ((pool_identifier_sort_key x).1 = (pool_identifier_sort_key y).1 ∧
      (pool_identifier_sort_key x).2 ≤ (pool_identifier_sort_key y).2)

instance : DecidableRel sortKeyLE := fun x y => by
  unfold sortKeyLE
  infer_instance

instance : IsTotal PoolIdentifier sortKeyLE := by
  refine ⟨fun x y => ?_⟩
  unfold sortKeyLE
  omega

instance : IsTrans PoolIdentifier sortKeyLE := by
  refine ⟨fun x y z hxy hyz => ?_⟩
  unfold sortKeyLE at hxy hyz ⊢
  omega

/-- sort_pool_identifiers_deterministically (src/src/main.rs lines
947-949): sort_by_key with the hex-string key.  The key is injective and
the key order total and antisymmetric, so every sorting algorithm returns
the same list; insertion sort realizes it. -/
def sort_pool_identifiers_deterministically
    (pool_ids : List PoolIdentifier) : List PoolIdentifier :=
  List.insertionSort sortKeyLE pool_ids

/-- The slot0_resync_required list attached to the ReorgComplete frame of
one reorg batch: every revert update of the batch is passed through
maybe_record_slot0_resync_pool in emission order, and the accumulated list
is sorted before send_reorg_complete. -/
def slot0_resync_list (msgs : List PoolUpdateMessage) : List PoolIdentifier :=
  sort_pool_identifiers_deterministically
    (msgs.foldl (fun acc m => maybe_record_slot0_resync_pool m acc) [])

/-! ## Decoded events and create_pool_update -/

/-- I256::MAX. -/
def I256_MAX : Int := 2 ^ 255 - 1

/-- I256::try_from(u).unwrap_or(I256::ZERO) for a U256 value u: the
conversion fails exactly when u exceeds I256::MAX, and the code falls back
to zero. -/
def i256_from_u256_or_zero (u : Nat) : Int :=
  if (u : Int) ≤ I256_MAX then (u : Int) else 0

/-- i128::MAX. -/
def I128_MAX : Int := 2 ^ 127 - 1

/-- i128::try_from(u).unwrap_or(i128::MAX) for a u128 value (the V3 Mint
liquidity clamp in create_pool_update). -/
def i128_from_u128_or_max (u : Nat) : Int :=
  if (u : Int) ≤ I128_MAX then (u : Int) else I128_MAX

/-- i128::try_from(u).map(|v| -v).unwrap_or(i128::MIN) for a u128 value
(the V3 Burn liquidity clamp in create_pool_update). -/
def i128_neg_from_u128_or_min (u : Nat) : Int :=
  if (u : Int) ≤ I128_MAX then -(u : Int) else -(2 ^ 127)

/-- Decoded event (src/src/events.rs, enum DecodedEvent).  U256/u128
fields are Nat, signed fields are Int. -/
inductive DecodedEvent where
  | V2Swap (pool : Address) (amount0_in amount1_in amount0_out amount1_out : Nat)
  | V2Mint (pool : Address) (amount0 amount1 : Nat)
  | V2Burn (pool : Address) (amount0 amount1 : Nat)
  | V3Swap (pool : Address) (sqrt_price_x96 : Nat) (liquidity : Nat) (tick : Int)
  | V3Mint (pool : Address) (tick_lower tick_upper : Int) (amount : Nat)
  | V3Burn (pool : Address) (tick_lower tick_upper : Int) (amount : Nat)
  | V4Swap (pool_id : B32) (sqrt_price_x96 : Nat) (liquidity : Nat) (tick : Int)
  | V4ModifyLiquidity (pool_id : B32) (tick_lower tick_upper : Int) (liquidity_delta : Int)
deriving DecidableEq, Repr

/-- LiquidityExEx::create_pool_update (src/src/main.rs lines 62-287).  The
unused _pool_tracker parameter of the source is omitted. -/
def create_pool_update (event : DecodedEvent)
    (block_number block_timestamp tx_index log_index : Nat) (is_revert : Bool) :
    Option PoolUpdateMessage :=
  match event with
  | DecodedEvent.V2Swap pool amount0_in amount1_in amount0_out amount1_out =>
      let deltas :=
        if amount0_in = 0 then
          (-(i256_from_u256_or_zero amount0_out), i256_from_u256_or_zero amount1_in)
        else
          (i256_from_u256_or_zero amount0_in, -(i256_from_u256_or_zero amount1_out))
      some
        { pool_id := PoolIdentifier.Address pool
          protocol := Protocol.UniswapV2
          update_type := UpdateType.Swap
          block_number := block_number
          block_timestamp := block_timestamp
          tx_index := tx_index
          log_index := log_index
          is_revert := is_revert
          update := PoolUpdate.V2Swap deltas.1 deltas.2 }
  | DecodedEvent.V2Mint pool amount0 amount1 =>
      some
        { pool_id := PoolIdentifier.Address pool
          protocol := Protocol.UniswapV2
          update_type := UpdateType.Mint
          block_number := block_number
          block_timestamp := block_timestamp
          tx_index := tx_index
          log_index := log_index
          is_revert := is_revert
          update := PoolUpdate.V2Liquidity (i256_from_u256_or_zero amount0)
            (i256_from_u256_or_zero amount1) }
  | DecodedEvent.V2Burn pool amount0 amount1 =>
      some
        { pool_id := PoolIdentifier.Address pool
          protocol := Protocol.UniswapV2
          update_type := UpdateType.Burn
          block_number := block_number
          block_timestamp := block_timestamp
          tx_index := tx_index
          log_index := log_index
          is_revert := is_revert
          update := PoolUpdate.V2Liquidity (-(i256_from_u256_or_zero amount0))
            (-(i256_from_u256_or_zero amount1)) }
  | DecodedEvent.V3Swap pool sqrt_price_x96 liquidity tick =>
      some
        { pool_id := PoolIdentifier.Address pool
          protocol := Protocol.UniswapV3
          update_type := UpdateType.Swap
          block_number := block_number
          block_timestamp := block_timestamp
          tx_index := tx_index
          log_index := log_index
          is_revert := is_revert
          update := PoolUpdate.V3Swap sqrt_price_x96 liquidity tick }
  | DecodedEvent.V3Mint pool tick_lower tick_upper amount =>
      some
        { pool_id := PoolIdentifier.Address pool
          protocol := Protocol.UniswapV3
          update_type := UpdateType.Mint
          block_number := block_number
          block_timestamp := block_timestamp
          tx_index := tx_index
          log_index := log_index
          is_revert := is_revert
          update := PoolUpdate.V3Liquidity tick_lower tick_upper
            (i128_from_u128_or_max amount) }
  | DecodedEvent.V3Burn pool tick_lower tick_upper amount =>
      some
        { pool_id := PoolIdentifier.Address pool
          protocol := Protocol.UniswapV3
          update_type := UpdateType.Burn
          block_number := block_number
          block_timestamp := block_timestamp
          tx_index := tx_index
          log_index := log_index
          is_revert := is_revert
          update := PoolUpdate.V3Liquidity tick_lower tick_upper
            (i128_neg_from_u128_or_min amount) }
  | DecodedEvent.V4Swap pool_id sqrt_price_x96 liquidity tick =>
      some
        { pool_id := PoolIdentifier.PoolId pool_id
          protocol := Protocol.UniswapV4
          update_type := UpdateType.Swap
          block_number := block_number
          block_timestamp := block_timestamp
          tx_index := tx_index
          log_index := log_index
          is_revert := is_revert
          update := PoolUpdate.V4Swap sqrt_price_x96 liquidity tick }
  | DecodedEvent.V4ModifyLiquidity pool_id tick_lower tick_upper liquidity_delta =>
      some
        { pool_id := PoolIdentifier.PoolId pool_id
          protocol := Protocol.UniswapV4
          update_type := if liquidity_delta > 0 then UpdateType.Mint else UpdateType.Burn
          block_number := block_number
          block_timestamp := block_timestamp
          tx_index := tx_index
          log_index := log_index
          is_revert := is_revert
          update := PoolUpdate.V4Liquidity tick_lower tick_upper liquidity_delta }

/-! ## V4 ModifyLiquidity 256-to-128-bit narrowing -/

/-- u128::MAX. -/
def U128_MAX : Nat := 2 ^ 128 - 1

/-- U256::saturating_to::<u128>. -/
def saturating_to_u128 (n : Nat) : Nat := min n U128_MAX

/-- The i256-to-i128 narrowing of decode_log for V4 ModifyLiquidity
(src/src/events.rs lines 262-284).  For a non-negative liquidityDelta the
raw U256 is the value itself; it is saturated into u128 and converted with
i128::try_from, falling back to i128::MAX.  For a negative liquidityDelta
the code negates first, so the raw U256 is -d; the converted value is then
negated, falling back to -(i128::MAX).  Negating I256::MIN = -(2^255)
overflows in the Rust source, so the theorems below assume -(2^255) < d. -/
def v4_liquidity_delta_narrow (d : Int) : Int :=
  if 0 ≤ d then
    let abs := saturating_to_u128 d.toNat
    if (abs : Int) ≤ I128_MAX then (abs : Int) else I128_MAX
  else
    let abs := saturating_to_u128 (-d).toNat
    if (abs : Int) ≤ I128_MAX then -(abs : Int) else -I128_MAX

/-! ## Whitelist ingestor message conversion -/

/-- Minimal whitelist message from the bus (src/src/nats_client.rs,
struct WhitelistPoolMessage), after JSON decoding. -/
structure WhitelistPoolMessage where
  message_type : String
  pools : List String
  protocols : List String
  chain : String
  timestamp : String
  snapshot_id : Option Int
deriving DecidableEq, Repr

/-- Numeric value of one hex digit (0-9, a-f, A-F as code points 48-57,
97-102, 65-70), as used by hex::decode_to_slice and Address::from_str. -/
def hex_char_val (c : Char) : Option Nat :=
  if 48 ≤ c.toNat ∧ c.toNat ≤ 57 then some (c.toNat - 48)
  else if 97 ≤ c.toNat ∧ c.toNat ≤ 102 then some (c.toNat - 97 + 10)
  else if 65 ≤ c.toNat ∧ c.toNat ≤ 70 then some (c.toNat - 65 + 10)
  else none

/-- Big-endian numeric value of a hex string; none when some character is
not a hex digit (the decode failure case). -/
def hex_string_val (cs : List Char) : Option Nat :=
  cs.foldl (fun acc c => acc.bind (fun a => (hex_char_val c).map (fun v => a * 16 + v)))
    (some 0)

/-- Strip a leading 0x, as both parse functions do before inspecting the
hex length. -/
def strip_0x_chars : List Char → List Char
  | '0' :: 'x' :: rest => rest
  | cs => cs

/-- Parse one pool identifier string: after stripping 0x, a 64-hex-digit
string decodes as a V4 opaque pool id (hex::decode_to_slice into 32
bytes); anything else goes to Address::from_str, which succeeds exactly on
40 hex digits (itself ignoring an optional 0x).  A failed parse is
reported by none and skipped by the callers. -/
def parse_pool_identifier_str (address_str : String) : Option PoolIdentifier :=
  let addr_hex := strip_0x_chars address_str.data
  if addr_hex.length = 64 then
    (hex_string_val addr_hex).map PoolIdentifier.PoolId
  else if addr_hex.length = 40 then
    (hex_string_val addr_hex).map PoolIdentifier.Address
  else none

/-- Protocol tag parsing inside parse_pool_addresses; an unknown tag skips
the pool. -/
def parse_protocol (s : String) : Option Protocol :=
  if s = "v2" then some Protocol.UniswapV2
  else if s = "v3" then some Protocol.UniswapV3
  else if s = "v4" then some Protocol.UniswapV4
  else none

/-- One iteration of the parse_pool_addresses loop: resolve the protocol
tag, then the identifier; on either failure the entry is skipped, and the
remaining metadata fields are zeroed exactly as in the source. -/
def parse_pool_metadata_entry (address_str protocol_str : String) :
    Option PoolMetadata :=
  match parse_protocol protocol_str with
  | none => none
  | some protocol =>
      match parse_pool_identifier_str address_str with
      | none => none
      | some pid => some (mkPool pid protocol)

/-- WhitelistNatsClient::parse_pool_addresses (src/src/nats_client.rs
lines 126-196): the length-mismatch check precedes all parsing and is the
only error; after it, pools and protocols are consumed pairwise and
invalid entries are skipped.  The error value records the two lengths the
source puts in its message. -/
def parse_pool_addresses (addresses protocols : List String) :
    Except (Nat × Nat) (List PoolMetadata) :=
  if addresses.length ≠ protocols.length then
    Except.error (addresses.length, protocols.length)
  else
    Except.ok ((addresses.zip protocols).filterMap
      (fun e => parse_pool_metadata_entry e.1 e.2))

/-- WhitelistNatsClient::parse_pool_identifiers (lines 199-234): no length
check at all, invalid entries skipped, never an error. -/
def parse_pool_identifiers (addresses : List String) : List PoolIdentifier :=
  addresses.filterMap parse_pool_identifier_str

/-- WhitelistNatsClient::convert_to_pool_update (lines 77-123): an add
message parses metadata into Add, a remove message parses identifiers into
Remove, and full as well as unknown types parse metadata into Replace. -/
def convert_to_pool_update (message : WhitelistPoolMessage) :
    Except (Nat × Nat) WhitelistUpdate :=
  if message.message_type = "add" then
    (parse_pool_addresses message.pools message.protocols).map WhitelistUpdate.Add
  else if message.message_type = "remove" then
    Except.ok (WhitelistUpdate.Remove (parse_pool_identifiers message.pools))
  else
    (parse_pool_addresses message.pools message.protocols).map WhitelistUpdate.Replace

/-- A remove message whose pools and protocols arrays have different
lengths (one pool, zero protocol tags). -/
def c8_message : WhitelistPoolMessage :=
  { message_type := "remove"
    pools := ["0xB4e16d0168e52d35CaCD2c6185b44281Ec28C9Dc"]
    protocols := []
    chain := "ethereum"
    timestamp := "2025-10-30T15:30:00Z"
    snapshot_id := none }

/-! ## Notification acknowledgement -/

/-- A chain handed over by a host notification, reduced to its tip
(number, hash) pair, which is all the acknowledgement reads. -/
structure Chain where
  tip_number : Nat
  tip_hash : Nat
deriving DecidableEq, Repr

/-- The host notification (reth_exex::ExExNotification): committed new
blocks, a reorg with old and new chains, or a plain revert. -/
inductive ExExNotification where
  | ChainCommitted (new : Chain)
  | ChainReorged (old new : Chain)
  | ChainReverted (old : Chain)
deriving DecidableEq, Repr

/-- Embedding of the dependency method ExExNotification::committed_chain
called at src/src/main.rs line 903.  Per its definition and documentation
in the reth_exex crate, it returns the committed new chain of both the
ChainCommitted and the ChainReorged variants (a reorg commits its new
chain), and nothing for ChainReverted. -/
def committed_chain : ExExNotification → Option Chain
  | ExExNotification.ChainCommitted new => some new
  | ExExNotification.ChainReorged _ new => some new
  | ExExNotification.ChainReverted _ => none

/-- The FinishedHeight acknowledgements the event loop sends to the host
for one processed notification (src/src/main.rs lines 902-906): exactly
one event carrying the tip (number, hash) when committed_chain is some,
and none otherwise. -/
def finished_height_events (n : ExExNotification) : List (Nat × Nat) :=
  match committed_chain n with
  | some c => [(c.tip_number, c.tip_hash)]
  | none => []

/-! ## ControlMessage wire discriminants -/

/-- Compact block-range summary (src/src/types.rs, struct ReorgRange). -/
structure ReorgRange where
  first_block : Option Nat
  last_block : Option Nat
  block_count : Nat
deriving DecidableEq, Repr

/-- The whitelist control payload of src/src/types.rs (declared there as
struct WhitelistUpdate; renamed here because pool_tracker.rs declares an
unrelated enum of the same name). -/
structure WhitelistUpdateWire where
  chain : String
  generated_at : String
  pools : List PoolMetadata
deriving DecidableEq, Repr

/-- ControlMessage exactly as declared in src/src/types.rs lines 150-214:
the legacy v1 variants (without stream_seq) are retained ahead of the V2
sequenced variants. -/
inductive ControlMessage where
  | UpdateWhitelist (update : WhitelistUpdateWire)
  | BeginBlock (block_number block_timestamp : Nat) (is_revert : Bool)
  | PoolUpdate (m : PoolUpdateMessage)
  | EndBlock (block_number num_updates : Nat)
  | Ping
  | Pong
  | BeginBlockV2 (stream_seq block_number block_timestamp : Nat) (is_revert : Bool)
  | PoolUpdateV2 (stream_seq : Nat) (event : PoolUpdateMessage)
  | EndBlockV2 (stream_seq block_number num_updates : Nat)
  | ReorgStart (stream_seq : Nat) (old_range new_range : ReorgRange)
  | ReorgComplete (stream_seq : Nat) (final_tip_block : Nat)
      (slot0_resync_required : List PoolIdentifier)
deriving DecidableEq, Repr

/-- bincode 1.x with its default options (as used by handle_client in
src/src/socket.rs) serializes an enum value as its declaration-order
variant index encoded as a u32, followed by the variant fields; this is
that index for the enum of src/src/types.rs. -/
def bincode_variant_index : ControlMessage → Nat
  | ControlMessage.UpdateWhitelist _ => 0
  | ControlMessage.BeginBlock _ _ _ => 1
  | ControlMessage.PoolUpdate _ => 2
  | ControlMessage.EndBlock _ _ => 3
  | ControlMessage.Ping => 4
  | ControlMessage.Pong => 5
  | ControlMessage.BeginBlockV2 _ _ _ _ => 6
  | ControlMessage.PoolUpdateV2 _ _ => 7
  | ControlMessage.EndBlockV2 _ _ _ => 8
  | ControlMessage.ReorgStart _ _ _ => 9
  | ControlMessage.ReorgComplete _ _ _ => 10

/-- A u32 as its four little-endian bytes. -/
def u32_le_bytes (n : Nat) : List Nat :=
  [n % 256, n / 2 ^ 8 % 256, n / 2 ^ 16 % 256, n / 2 ^ 24 % 256]

/-- The first four bytes of the bincode serialization of a frame: the
little-endian u32 enum discriminant. -/
def serialized_head (m : ControlMessage) : List Nat :=
  u32_le_bytes (bincode_variant_index m)

/-- A sample reorg range for concrete frames. -/
def c6_range : ReorgRange :=
  { first_block := some 1, last_block := some 2, block_count := 2 }

/-- A sample pool update envelope for concrete frames. -/
def c6_msg : PoolUpdateMessage :=
  { pool_id := PoolIdentifier.Address 0
    protocol := Protocol.UniswapV2
    update_type := UpdateType.Swap
    block_number := 0
    block_timestamp := 0
    tx_index := 0
    log_index := 0
    is_revert := false
    update := PoolUpdate.V2Swap 0 0 }

/-! ## Theorems -/

/-! ## Block-synchronized whitelist updates (queue_update / begin_block / end_block) -/

theorem queue_update_of_in_block (t : PoolTracker) (u : WhitelistUpdate)
    (hb : t.in_block = true) :
    t.queue_update u = { t with pending_updates := t.pending_updates ++ [u] } := by
  simp [PoolTracker.queue_update, hb]

theorem foldl_queue_update_of_in_block (us : List WhitelistUpdate) (t : PoolTracker)
    (hb : t.in_block = true) :
    us.foldl PoolTracker.queue_update t = { t with pending_updates := t.pending_updates ++ us } := by
  induction us generalizing t with
  | nil => simp
  | cons u us ih =>
      rw [List.foldl_cons, queue_update_of_in_block t u hb,
        ih { t with pending_updates := t.pending_updates ++ [u] } hb]
      simp

theorem queue_update_of_not_in_block (t : PoolTracker) (u : WhitelistUpdate)
    (hb : t.in_block = false) :
    t.queue_update u =
      PoolTracker.apply_pending_updates { t with pending_updates := t.pending_updates ++ [u] } := by
  simp [PoolTracker.queue_update, hb]

theorem end_block_eq_foldl (t : PoolTracker) :
    t.end_block =
      t.pending_updates.foldl PoolTracker.applyUpdate
        { t with in_block := false, pending_updates := [] } := by
  rfl

/-- C1: while in_block is set (between begin_block and end_block), any
sequence of queue_update calls leaves all four membership structures
unchanged and only appends to the pending FIFO; end_block then applies the
queued updates in FIFO order; and a queue_update issued while in_block is
false applies the queued update immediately. -/
theorem c1_block_synchronized_whitelist (t : PoolTracker) (us : List WhitelistUpdate)
    (hb : t.in_block = true) :
    membershipView (us.foldl PoolTracker.queue_update t) = membershipView t ∧
    (us.foldl PoolTracker.queue_update t).pending_updates = t.pending_updates ++ us ∧
    (us.foldl PoolTracker.queue_update t).end_block =
      (t.pending_updates ++ us).foldl PoolTracker.applyUpdate
        { t with in_block := false, pending_updates := [] } ∧
    (∀ (s : PoolTracker) (u : WhitelistUpdate), s.in_block = false →
      s.queue_update u =
        PoolTracker.apply_pending_updates { s with pending_updates := s.pending_updates ++ [u] }) := by
  rw [foldl_queue_update_of_in_block us t hb]
  refine ⟨rfl, rfl, ?_, fun s u hs => queue_update_of_not_in_block s u hs⟩
  rw [end_block_eq_foldl]

/-- Witness for c1_block_synchronized_whitelist at a concrete tracker that
has entered a block and a concrete queued update. -/
theorem c1_block_synchronized_whitelist_witness :
    membershipView
        ([WhitelistUpdate.Add [mkPool (PoolIdentifier.Address 5) Protocol.UniswapV2]].foldl
          PoolTracker.queue_update PoolTracker.new.begin_block) =
      membershipView PoolTracker.new.begin_block ∧
    ([WhitelistUpdate.Add [mkPool (PoolIdentifier.Address 5) Protocol.UniswapV2]].foldl
        PoolTracker.queue_update PoolTracker.new.begin_block).pending_updates =
      PoolTracker.new.begin_block.pending_updates ++
        [WhitelistUpdate.Add [mkPool (PoolIdentifier.Address 5) Protocol.UniswapV2]] ∧
    ([WhitelistUpdate.Add [mkPool (PoolIdentifier.Address 5) Protocol.UniswapV2]].foldl
        PoolTracker.queue_update PoolTracker.new.begin_block).end_block =
      (PoolTracker.new.begin_block.pending_updates ++
          [WhitelistUpdate.Add [mkPool (PoolIdentifier.Address 5) Protocol.UniswapV2]]).foldl
        PoolTracker.applyUpdate
        { PoolTracker.new.begin_block with in_block := false, pending_updates := [] } ∧
    (∀ (s : PoolTracker) (u : WhitelistUpdate), s.in_block = false →
      s.queue_update u =
        PoolTracker.apply_pending_updates { s with pending_updates := s.pending_updates ++ [u] }) :=
  c1_block_synchronized_whitelist PoolTracker.new.begin_block
    [WhitelistUpdate.Add [mkPool (PoolIdentifier.Address 5) Protocol.UniswapV2]] rfl

theorem protoCount_cons (p : Protocol) (e : Nat × PoolMetadata)
    (l : List (Nat × PoolMetadata)) :
    protoCount p (e :: l) = protoCount p l + (if e.2.protocol = p then 1 else 0) := by
  simp [protoCount, List.countP_cons]

theorem protoCount_total (l : List (Nat × PoolMetadata)) :
    protoCount Protocol.UniswapV2 l + protoCount Protocol.UniswapV3 l
      + protoCount Protocol.UniswapV4 l = l.length := by
  induction l with
  | nil => rfl
  | cons e l ih =>
      rw [protoCount_cons, protoCount_cons, protoCount_cons]
      cases e.2.protocol <;> simp <;> omega

theorem addOnePool_countsOK (t : PoolTracker) (pool : PoolMetadata)
    (h : countsOK t) : countsOK (t.addOnePool pool) := by
  obtain ⟨h2, h3, h4⟩ := h
  unfold PoolTracker.addOnePool
  by_cases htr : t.alreadyTracked pool.pool_id = true
  · simp only [htr, if_true]
    exact ⟨h2, h3, h4⟩
  · simp only [htr, if_false, Bool.false_eq_true]
    cases hpid : pool.pool_id with
    | Address addr =>
        cases hp : pool.protocol <;>
          simp_all [countsOK, PoolTracker.incCount, protoCount_cons, hp] <;> omega
    | PoolId id =>
        by_cases hmem : UNISWAP_V4_POOL_MANAGER ∈ t.tracked_addresses <;>
          cases hp : pool.protocol <;>
            simp_all [countsOK, PoolTracker.incCount, protoCount_cons, hp] <;> omega

theorem lookupKey_none_removeKey (l : List (Nat × PoolMetadata)) (a : Nat)
    (h : PoolTracker.lookupKey l a = none) : PoolTracker.removeKey l a = l := by
  induction l with
  | nil => rfl
  | cons e l ih =>
      obtain ⟨k, v⟩ := e
      by_cases hk : k = a
      · simp [PoolTracker.lookupKey, hk] at h
      · simp only [PoolTracker.lookupKey, hk, if_false] at h
        simp [PoolTracker.removeKey, hk, ih h]

theorem removeKey_protoCount (l : List (Nat × PoolMetadata)) (a : Nat)
    (pool : PoolMetadata) (h : PoolTracker.lookupKey l a = some pool) (p : Protocol) :
    protoCount p (PoolTracker.removeKey l a) + (if pool.protocol = p then 1 else 0)
      = protoCount p l := by
  induction l with
  | nil => simp [PoolTracker.lookupKey] at h
  | cons e l ih =>
      obtain ⟨k, v⟩ := e
      by_cases hk : k = a
      · simp only [PoolTracker.lookupKey, hk, if_true, Option.some.injEq] at h
        subst h
        simp [PoolTracker.removeKey, hk, protoCount_cons, Nat.add_comm]
      · simp only [PoolTracker.lookupKey, hk, if_false] at h
        rw [PoolTracker.removeKey]
        simp only [hk, if_false]
        rw [protoCount_cons, protoCount_cons]
        rw [Nat.add_right_comm, ih h]

theorem removeKey_length (l : List (Nat × PoolMetadata)) (a : Nat)
    (pool : PoolMetadata) (h : PoolTracker.lookupKey l a = some pool) :
    (PoolTracker.removeKey l a).length + 1 = l.length := by
  induction l with
  | nil => simp [PoolTracker.lookupKey] at h
  | cons e l ih =>
      obtain ⟨k, v⟩ := e
      by_cases hk : k = a
      · simp [PoolTracker.removeKey, hk]
      · simp only [PoolTracker.lookupKey, hk, if_false] at h
        rw [PoolTracker.removeKey]
        simp only [hk, if_false, List.length_cons]
        have := ih h
        omega

theorem removeOnePool_countsOK (t : PoolTracker) (pid : PoolIdentifier)
    (h : countsOK t) : countsOK (t.removeOnePool pid) := by
  obtain ⟨h2, h3, h4⟩ := h
  cases pid with
  | Address addr =>
      cases hl : PoolTracker.lookupKey t.pools_by_address addr with
      | none =>
          simp only [PoolTracker.removeOnePool, hl]
          exact ⟨h2, h3, h4⟩
      | some pool =>
          have e2 := removeKey_protoCount t.pools_by_address addr pool hl Protocol.UniswapV2
          have e3 := removeKey_protoCount t.pools_by_address addr pool hl Protocol.UniswapV3
          have e4 := removeKey_protoCount t.pools_by_address addr pool hl Protocol.UniswapV4
          simp only [PoolTracker.removeOnePool, hl]
          cases hp : pool.protocol <;>
            simp only [hp] at e2 e3 e4 <;>
            simp at e2 e3 e4 <;>
            simp only [hp, PoolTracker.decCount] <;>
            exact ⟨by simp; omega, by simp; omega, by simp; omega⟩
  | PoolId id =>
      cases hl : PoolTracker.lookupKey t.pools_by_id id with
      | none =>
          simp only [PoolTracker.removeOnePool, hl]
          exact ⟨h2, h3, h4⟩
      | some pool =>
          have e2 := removeKey_protoCount t.pools_by_id id pool hl Protocol.UniswapV2
          have e3 := removeKey_protoCount t.pools_by_id id pool hl Protocol.UniswapV3
          have e4 := removeKey_protoCount t.pools_by_id id pool hl Protocol.UniswapV4
          simp only [PoolTracker.removeOnePool, hl]
          cases hp : pool.protocol <;>
            simp only [hp] at e2 e3 e4 <;>
            simp at e2 e3 e4 <;>
            simp only [hp, PoolTracker.decCount] <;>
            exact ⟨by simp; omega, by simp; omega, by simp; omega⟩

theorem add_pools_countsOK (pools : List PoolMetadata) (t : PoolTracker)
    (h : countsOK t) : countsOK (t.add_pools pools) := by
  induction pools generalizing t with
  | nil => exact h
  | cons pool pools ih =>
      exact ih (t.addOnePool pool) (addOnePool_countsOK t pool h)

theorem remove_pools_countsOK (pids : List PoolIdentifier) (t : PoolTracker)
    (h : countsOK t) : countsOK (t.remove_pools pids) := by
  induction pids generalizing t with
  | nil => exact h
  | cons pid pids ih =>
      exact ih (t.removeOnePool pid) (removeOnePool_countsOK t pid h)

theorem replace_all_countsOK (t : PoolTracker) (pools : List PoolMetadata) :
    countsOK (t.replace_all pools) := by
  refine add_pools_countsOK pools _ ?_
  exact ⟨rfl, rfl, rfl⟩

theorem applyUpdate_countsOK (t : PoolTracker) (u : WhitelistUpdate)
    (h : countsOK t) : countsOK (t.applyUpdate u) := by
  cases u with
  | Add pools => exact add_pools_countsOK pools t h
  | Remove pids => exact remove_pools_countsOK pids t h
  | Replace pools => exact replace_all_countsOK t pools

theorem countsOK_set_pending (t : PoolTracker) (p : List WhitelistUpdate)
    (h : countsOK t) : countsOK { t with pending_updates := p } := h

theorem countsOK_set_in_block (t : PoolTracker) (b : Bool)
    (h : countsOK t) : countsOK { t with in_block := b } := h

theorem foldl_applyUpdate_countsOK (us : List WhitelistUpdate) (t : PoolTracker)
    (h : countsOK t) : countsOK (us.foldl PoolTracker.applyUpdate t) := by
  induction us generalizing t with
  | nil => exact h
  | cons u us ih => exact ih (t.applyUpdate u) (applyUpdate_countsOK t u h)

theorem apply_pending_updates_countsOK (t : PoolTracker)
    (h : countsOK t) : countsOK t.apply_pending_updates := by
  exact foldl_applyUpdate_countsOK t.pending_updates _ (countsOK_set_pending t [] h)

theorem runOps_countsOK (ops : List TrackerOp) (t : PoolTracker)
    (h : countsOK t) : countsOK (runOps t ops) := by
  induction ops generalizing t with
  | nil => exact h
  | cons op ops ih =>
      refine ih _ ?_
      cases op with
      | queue u =>
          unfold PoolTracker.queue_update
          by_cases hb : t.in_block <;>
            simp only [hb, if_true, if_false, Bool.false_eq_true]
          · exact countsOK_set_pending t (t.pending_updates ++ [u]) h
          · exact apply_pending_updates_countsOK _
              (countsOK_set_pending t (t.pending_updates ++ [u]) h)
      | begin => exact countsOK_set_in_block t true h
      | finish =>
          exact apply_pending_updates_countsOK _ (countsOK_set_in_block t false h)

/-- C10: after any sequence of tracker operations starting from
PoolTracker::new, the incremental per-protocol counters sum to the number
of stored pool entries, so stats() reports a total_pools equal to the sum
of its per-protocol counts. -/
theorem c10_stats_totals (ops : List TrackerOp) :
    (runOps PoolTracker.new ops).v2_count + (runOps PoolTracker.new ops).v3_count
        + (runOps PoolTracker.new ops).v4_count
      = (runOps PoolTracker.new ops).pools_by_address.length
        + (runOps PoolTracker.new ops).pools_by_id.length ∧
    (runOps PoolTracker.new ops).stats.total_pools
      = (runOps PoolTracker.new ops).stats.v2_pools
        + (runOps PoolTracker.new ops).stats.v3_pools
        + (runOps PoolTracker.new ops).stats.v4_pools := by
  have h : countsOK (runOps PoolTracker.new ops) :=
    runOps_countsOK ops PoolTracker.new ⟨rfl, rfl, rfl⟩
  obtain ⟨h2, h3, h4⟩ := h
  have ta := protoCount_total (runOps PoolTracker.new ops).pools_by_address
  have ti := protoCount_total (runOps PoolTracker.new ops).pools_by_id
  constructor
  · omega
  · simp only [PoolTracker.stats]
    omega

theorem lookupKey_eq_none (l : List (Nat × PoolMetadata)) (a : Nat)
    (h : a ∉ l.map Prod.fst) : PoolTracker.lookupKey l a = none := by
  induction l with
  | nil => rfl
  | cons e l ih =>
      obtain ⟨k, v⟩ := e
      simp only [List.map_cons, List.mem_cons] at h
      push_neg at h
      rw [PoolTracker.lookupKey]
      rw [if_neg (fun he => h.1 he.symm)]
      exact ih h.2

theorem mem_keys_of_mem_removeKey (l : List (Nat × PoolMetadata)) (a b : Nat)
    (h : b ∈ (PoolTracker.removeKey l a).map Prod.fst) : b ∈ l.map Prod.fst := by
  induction l with
  | nil => simp [PoolTracker.removeKey] at h
  | cons e l ih =>
      obtain ⟨k, v⟩ := e
      by_cases hk : k = a
      · simp only [PoolTracker.removeKey, hk, if_true] at h
        simp [List.mem_cons, h]
      · simp only [PoolTracker.removeKey, hk, if_false, List.map_cons, List.mem_cons] at h
        rcases h with h | h
        · simp [List.mem_cons, h]
        · simp [List.mem_cons, ih h]

theorem mem_removeElem (l : List Nat) (a b : Nat) :
    b ∈ PoolTracker.removeElem l a ↔ b ∈ l ∧ b ≠ a := by
  simp [PoolTracker.removeElem]

theorem addOnePool_managerInv (t : PoolTracker) (pool : PoolMetadata)
    (hg : goodPool pool) (h : managerInv t) : managerInv (t.addOnePool pool) := by
  obtain ⟨h1, h2⟩ := h
  unfold PoolTracker.addOnePool
  by_cases htr : t.alreadyTracked pool.pool_id = true
  · simp only [htr, if_true]
    exact ⟨h1, h2⟩
  · simp only [htr, if_false, Bool.false_eq_true]
    cases hpid : pool.pool_id with
    | Address addr =>
        have haddr : addr ≠ UNISWAP_V4_POOL_MANAGER := by
          intro he
          exact hg (by rw [hpid, he])
        cases hp : pool.protocol <;>
          simp only [PoolTracker.incCount] <;>
          refine ⟨?_, ?_⟩ <;>
          simp only [List.map_cons, List.mem_cons]
        all_goals
          first
          | (rintro (he | hmem)
             · exact haddr he.symm
             · exact h1 hmem)
          | (intro hne
             exact Or.inr (h2 hne))
    | PoolId id =>
        by_cases hmem : UNISWAP_V4_POOL_MANAGER ∈ t.tracked_addresses <;>
          cases hp : pool.protocol <;>
          simp only [hmem, if_true, if_false, PoolTracker.incCount] <;>
          refine ⟨h1, fun _ => ?_⟩ <;>
          simp [hmem]

theorem removeOnePool_managerInv (t : PoolTracker) (pid : PoolIdentifier)
    (h : managerInv t) : managerInv (t.removeOnePool pid) := by
  obtain ⟨h1, h2⟩ := h
  cases pid with
  | Address addr =>
      by_cases ha : addr = UNISWAP_V4_POOL_MANAGER
      · have hnone : PoolTracker.lookupKey t.pools_by_address addr = none := by
          rw [ha]
          exact lookupKey_eq_none _ _ h1
        simp only [PoolTracker.removeOnePool, hnone]
        exact ⟨h1, h2⟩
      · cases hl : PoolTracker.lookupKey t.pools_by_address addr with
        | none =>
            simp only [PoolTracker.removeOnePool, hl]
            exact ⟨h1, h2⟩
        | some pool =>
            simp only [PoolTracker.removeOnePool, hl]
            cases hp : pool.protocol <;>
              simp only [PoolTracker.decCount] <;>
              refine ⟨?_, ?_⟩
            all_goals
              first
              | exact fun hmem => h1 (mem_keys_of_mem_removeKey _ _ _ hmem)
              | (intro hne
                 exact (mem_removeElem _ _ _).mpr ⟨h2 hne, fun he => ha he.symm⟩)
  | PoolId id =>
      cases hl : PoolTracker.lookupKey t.pools_by_id id with
      | none =>
          simp only [PoolTracker.removeOnePool, hl]
          exact ⟨h1, h2⟩
      | some pool =>
          simp only [PoolTracker.removeOnePool, hl]
          cases hp : pool.protocol <;>
            simp only [PoolTracker.decCount] <;>
            refine ⟨h1, fun hne => h2 ?_⟩ <;>
            (intro hcon; rw [hcon] at hne; exact hne rfl)

theorem add_pools_managerInv (pools : List PoolMetadata) (t : PoolTracker)
    (hg : ∀ pool ∈ pools, goodPool pool) (h : managerInv t) :
    managerInv (t.add_pools pools) := by
  induction pools generalizing t with
  | nil => exact h
  | cons pool pools ih =>
      exact ih _ (fun q hq => hg q (List.mem_cons_of_mem _ hq))
        (addOnePool_managerInv t pool (hg pool (List.mem_cons_self _ _)) h)

theorem remove_pools_managerInv (pids : List PoolIdentifier) (t : PoolTracker)
    (h : managerInv t) : managerInv (t.remove_pools pids) := by
  induction pids generalizing t with
  | nil => exact h
  | cons pid pids ih => exact ih _ (removeOnePool_managerInv t pid h)

theorem replace_all_managerInv (t : PoolTracker) (pools : List PoolMetadata)
    (hg : ∀ pool ∈ pools, goodPool pool) : managerInv (t.replace_all pools) := by
  refine add_pools_managerInv pools _ hg ?_
  exact ⟨by simp, fun hne => absurd rfl hne⟩

theorem applyUpdate_managerInv (t : PoolTracker) (u : WhitelistUpdate)
    (hg : goodUpdate u) (h : managerInv t) : managerInv (t.applyUpdate u) := by
  cases u with
  | Add pools => exact add_pools_managerInv pools t hg h
  | Remove pids => exact remove_pools_managerInv pids t h
  | Replace pools => exact replace_all_managerInv t pools hg

theorem foldl_applyUpdate_managerInv (us : List WhitelistUpdate) (t : PoolTracker)
    (hg : ∀ u ∈ us, goodUpdate u) (h : managerInv t) :
    managerInv (us.foldl PoolTracker.applyUpdate t) := by
  induction us generalizing t with
  | nil => exact h
  | cons u us ih =>
      exact ih _ (fun q hq => hg q (List.mem_cons_of_mem _ hq))
        (applyUpdate_managerInv t u (hg u (List.mem_cons_self _ _)) h)

theorem managerInv_set_pending (t : PoolTracker) (p : List WhitelistUpdate)
    (h : managerInv t) : managerInv { t with pending_updates := p } := h

theorem managerInv_set_in_block (t : PoolTracker) (b : Bool)
    (h : managerInv t) : managerInv { t with in_block := b } := h

theorem apply_pending_updates_managerInv (t : PoolTracker)
    (hg : ∀ u ∈ t.pending_updates, goodUpdate u) (h : managerInv t) :
    managerInv t.apply_pending_updates :=
  foldl_applyUpdate_managerInv t.pending_updates _ hg (managerInv_set_pending t [] h)

theorem addOnePool_pending (t : PoolTracker) (pool : PoolMetadata) :
    (t.addOnePool pool).pending_updates = t.pending_updates := by
  unfold PoolTracker.addOnePool
  by_cases htr : t.alreadyTracked pool.pool_id = true
  · simp [htr]
  · simp only [htr, if_false, Bool.false_eq_true]
    cases pool.pool_id <;>
      cases pool.protocol <;>
      simp only [PoolTracker.incCount] <;>
      first
      | rfl
      | (rename_i id
         by_cases hmem : UNISWAP_V4_POOL_MANAGER ∈ t.tracked_addresses <;>
           simp [hmem])

theorem removeOnePool_pending (t : PoolTracker) (pid : PoolIdentifier) :
    (t.removeOnePool pid).pending_updates = t.pending_updates := by
  cases pid with
  | Address addr =>
      cases hl : PoolTracker.lookupKey t.pools_by_address addr with
      | none => simp [PoolTracker.removeOnePool, hl]
      | some pool =>
          simp only [PoolTracker.removeOnePool, hl]
          cases pool.protocol <;> simp [PoolTracker.decCount]
  | PoolId id =>
      cases hl : PoolTracker.lookupKey t.pools_by_id id with
      | none => simp [PoolTracker.removeOnePool, hl]
      | some pool =>
          simp only [PoolTracker.removeOnePool, hl]
          cases pool.protocol <;> simp [PoolTracker.decCount]

theorem add_pools_pending (pools : List PoolMetadata) (t : PoolTracker) :
    (t.add_pools pools).pending_updates = t.pending_updates := by
  induction pools generalizing t with
  | nil => rfl
  | cons pool pools ih =>
      rw [PoolTracker.add_pools, List.foldl_cons]
      rw [show List.foldl PoolTracker.addOnePool (t.addOnePool pool) pools
            = (t.addOnePool pool).add_pools pools from rfl]
      rw [ih, addOnePool_pending]

theorem remove_pools_pending (pids : List PoolIdentifier) (t : PoolTracker) :
    (t.remove_pools pids).pending_updates = t.pending_updates := by
  induction pids generalizing t with
  | nil => rfl
  | cons pid pids ih =>
      rw [PoolTracker.remove_pools, List.foldl_cons]
      rw [show List.foldl PoolTracker.removeOnePool (t.removeOnePool pid) pids
            = (t.removeOnePool pid).remove_pools pids from rfl]
      rw [ih, removeOnePool_pending]

theorem applyUpdate_pending (t : PoolTracker) (u : WhitelistUpdate) :
    (t.applyUpdate u).pending_updates = t.pending_updates := by
  cases u with
  | Add pools => exact add_pools_pending pools t
  | Remove pids => exact remove_pools_pending pids t
  | Replace pools =>
      rw [PoolTracker.applyUpdate, PoolTracker.replace_all, add_pools_pending]

theorem foldl_applyUpdate_pending (us : List WhitelistUpdate) (t : PoolTracker) :
    (us.foldl PoolTracker.applyUpdate t).pending_updates = t.pending_updates := by
  induction us generalizing t with
  | nil => rfl
  | cons u us ih => rw [List.foldl_cons, ih, applyUpdate_pending]

theorem apply_pending_updates_pending (t : PoolTracker) :
    t.apply_pending_updates.pending_updates = [] := by
  rw [PoolTracker.apply_pending_updates, foldl_applyUpdate_pending]

theorem runOps_managerInvQ (ops : List TrackerOp) (t : PoolTracker)
    (hg : ∀ op ∈ ops, goodOp op) (h : managerInvQ t) :
    managerInvQ (runOps t ops) := by
  induction ops generalizing t with
  | nil => exact h
  | cons op ops ih =>
      refine ih _ (fun q hq => hg q (List.mem_cons_of_mem _ hq)) ?_
      obtain ⟨h1, hpend⟩ := h
      have hop := hg op (List.mem_cons_self _ _)
      cases op with
      | queue u =>
          show managerInvQ (t.queue_update u)
          have hpend2 : ∀ q ∈ t.pending_updates ++ [u], goodUpdate q := by
            intro q hq
            rcases List.mem_append.mp hq with hq | hq
            · exact hpend q hq
            · rcases List.mem_singleton.mp hq with rfl
              exact hop
          unfold PoolTracker.queue_update
          by_cases hb : t.in_block <;>
            simp only [hb, if_true, if_false, Bool.false_eq_true]
          · exact ⟨managerInv_set_pending t (t.pending_updates ++ [u]) h1, hpend2⟩
          · refine ⟨apply_pending_updates_managerInv _ hpend2
              (managerInv_set_pending t (t.pending_updates ++ [u]) h1), ?_⟩
            intro q hq
            rw [apply_pending_updates_pending] at hq
            exact absurd hq (List.not_mem_nil q)
      | begin => exact ⟨managerInv_set_in_block t true h1, hpend⟩
      | finish =>
          show managerInvQ t.end_block
          rw [PoolTracker.end_block]
          refine ⟨apply_pending_updates_managerInv _ hpend
              (managerInv_set_in_block t false h1), ?_⟩
          intro q hq
          rw [apply_pending_updates_pending] at hq
          exact absurd hq (List.not_mem_nil q)

/-- C9 counterexample: after Add of a pool whose identifier is the Address
of the PoolManager contract itself, then Add of an opaque-key V4 pool,
then Remove of the manager-address pool, the tracker still stores an
opaque-key pool but the PoolManager address is no longer in the
tracked-address set (remove_pools evicts it because the manager address is
a key of pools_by_address). -/
theorem c9_counterexample :
    (runOps PoolTracker.new c9_ops).pools_by_id ≠ [] ∧
    UNISWAP_V4_POOL_MANAGER ∉ (runOps PoolTracker.new c9_ops).tracked_addresses := by
  decide

/-- C9 amended: after any sequence of applied whitelist updates in which no
added pool is keyed at the PoolManager contract address itself, whenever
the tracker contains at least one pool keyed by an opaque 32-byte pool id,
the V4 PoolManager contract address is a member of the tracked-address
set. -/
theorem c9_manager_tracked (ops : List TrackerOp)
    (hg : ∀ op ∈ ops, goodOp op)
    (hne : (runOps PoolTracker.new ops).pools_by_id ≠ []) :
    UNISWAP_V4_POOL_MANAGER ∈ (runOps PoolTracker.new ops).tracked_addresses := by
  have h := runOps_managerInvQ ops PoolTracker.new hg
    ⟨⟨by simp [PoolTracker.new], fun hc => absurd rfl hc⟩,
     fun u hu => absurd hu (List.not_mem_nil u)⟩
  exact h.1.2 hne

/-- Witness for c9_manager_tracked: queueing one good V4 pool puts the
manager address in the tracked set. -/
theorem c9_manager_tracked_witness :
    (∀ op ∈ [TrackerOp.queue (WhitelistUpdate.Add
        [mkPool (PoolIdentifier.PoolId 1) Protocol.UniswapV4])], goodOp op) ∧
    (runOps PoolTracker.new [TrackerOp.queue (WhitelistUpdate.Add
        [mkPool (PoolIdentifier.PoolId 1) Protocol.UniswapV4])]).pools_by_id ≠ [] ∧
    UNISWAP_V4_POOL_MANAGER ∈ (runOps PoolTracker.new
      [TrackerOp.queue (WhitelistUpdate.Add
        [mkPool (PoolIdentifier.PoolId 1) Protocol.UniswapV4])]).tracked_addresses := by
  have hg : ∀ op ∈ [TrackerOp.queue (WhitelistUpdate.Add
      [mkPool (PoolIdentifier.PoolId 1) Protocol.UniswapV4])], goodOp op := by
    intro op hop
    rcases List.mem_singleton.mp hop with rfl
    intro pool hpool
    rcases List.mem_singleton.mp hpool with rfl
    simp [goodPool, mkPool]
  exact ⟨hg, by decide, c9_manager_tracked _ hg (by decide)⟩

theorem frameSeq_eq_mod (k : Nat) : frameSeq k = k % U64_MOD := by
  induction k with
  | zero => rfl
  | succ k ih =>
      rw [frameSeq, ih, next_stream_seq]
      simp only [U64_MOD]
      omega

/-- C2 counterexample: the counter wraps.  Frame number 2^64 - 1 carries
stream_seq 2^64 - 1 while the strictly later frame number 2^64 carries
stream_seq 0, so strict monotonicity over a whole server lifetime fails at
the wrap of the u64 counter. -/
theorem c2_counterexample :
    frameSeq (2 ^ 64 - 1) = 2 ^ 64 - 1 ∧
    frameSeq (2 ^ 64) = 0 ∧
    2 ^ 64 - 1 < 2 ^ 64 ∧
    ¬ frameSeq (2 ^ 64 - 1) < frameSeq (2 ^ 64) := by
  have h1 := frameSeq_eq_mod (2 ^ 64 - 1)
  have h2 := frameSeq_eq_mod (2 ^ 64)
  simp only [U64_MOD] at h1 h2
  rw [h1, h2]
  refine ⟨Nat.mod_eq_of_lt (by norm_num), Nat.mod_self _, by norm_num, ?_⟩
  rw [Nat.mod_eq_of_lt (by norm_num), Nat.mod_self]
  omega

/-- C2 amended: stream_seq values are assigned sequentially modulo 2^64,
so across any two frames emitted while fewer than 2^64 frames have been
emitted in the server lifetime, the later frame carries the strictly
greater stream_seq; the first wrap of the u64 counter (after 2^64 frames)
breaks strict monotonicity. -/
theorem c2_stream_seq_monotonic (i j : Nat) (hij : i < j) (hj : j < 2 ^ 64) :
    frameSeq i < frameSeq j := by
  rw [frameSeq_eq_mod, frameSeq_eq_mod]
  simp only [U64_MOD]
  rw [Nat.mod_eq_of_lt (lt_trans hij hj), Nat.mod_eq_of_lt hj]
  exact hij

/-- Witness for c2_stream_seq_monotonic at frames 1 and 2. -/
theorem c2_stream_seq_monotonic_witness :
    1 < 2 ∧ 2 < 2 ^ 64 ∧ frameSeq 1 < frameSeq 2 :=
  ⟨by norm_num, by norm_num, c2_stream_seq_monotonic 1 2 (by norm_num) (by norm_num)⟩

theorem pool_identifier_eq_iff (x y : PoolIdentifier) :
    pool_identifier_eq x y = true ↔ x = y := by
  cases x <;> cases y <;> simp [pool_identifier_eq]

theorem subset_maybe_record (m : PoolUpdateMessage) (acc : List PoolIdentifier)
    (x : PoolIdentifier) (h : x ∈ acc) :
    x ∈ maybe_record_slot0_resync_pool m acc := by
  unfold maybe_record_slot0_resync_pool
  split
  · exact h
  · split
    · exact h
    · split
      · exact h
      · exact List.mem_append_left _ h

theorem mem_maybe_record (m : PoolUpdateMessage) (acc : List PoolIdentifier)
    (x : PoolIdentifier) :
    x ∈ maybe_record_slot0_resync_pool m acc ↔
      x ∈ acc ∨ (m.is_revert = true ∧ needs_resync m.update = true ∧ m.pool_id = x) := by
  constructor
  · intro hmem
    unfold maybe_record_slot0_resync_pool at hmem
    by_cases hr : m.is_revert
    · by_cases hn : needs_resync m.update
      · simp only [hr, hn, Bool.not_true, if_false, Bool.false_eq_true] at hmem
        by_cases hd : acc.any (fun existing => pool_identifier_eq existing m.pool_id)
        · simp only [hd, if_true] at hmem
          exact Or.inl hmem
        · simp only [hd, if_false, Bool.false_eq_true] at hmem
          rcases List.mem_append.mp hmem with hmem | hmem
          · exact Or.inl hmem
          · rcases List.mem_singleton.mp hmem with rfl
            exact Or.inr ⟨hr, hn, rfl⟩
      · simp only [Bool.not_eq_true] at hn
        simp only [hr, hn, Bool.not_true, Bool.not_false, if_false, if_true,
          Bool.false_eq_true] at hmem
        exact Or.inl hmem
    · simp only [Bool.not_eq_true] at hr
      simp only [hr, Bool.not_false, if_true] at hmem
      exact Or.inl hmem
  · rintro (hmem | ⟨hr, hn, rfl⟩)
    · exact subset_maybe_record m acc x hmem
    · unfold maybe_record_slot0_resync_pool
      simp only [hr, hn, Bool.not_true, if_false, Bool.false_eq_true]
      by_cases hd : acc.any (fun existing => pool_identifier_eq existing m.pool_id)
      · simp only [hd, if_true]
        rcases List.any_eq_true.mp hd with ⟨y, hy, hyx⟩
        rcases (pool_identifier_eq_iff y m.pool_id).mp hyx with rfl
        exact hy
      · simp only [hd, if_false, Bool.false_eq_true]
        exact List.mem_append_right _ (List.mem_singleton.mpr rfl)

theorem nodup_maybe_record (m : PoolUpdateMessage) (acc : List PoolIdentifier)
    (h : acc.Nodup) : (maybe_record_slot0_resync_pool m acc).Nodup := by
  unfold maybe_record_slot0_resync_pool
  split
  · exact h
  split
  · exact h
  split
  · exact h
  · rename_i hr hn hd
    refine (List.nodup_append ..).mpr ⟨h, List.nodup_singleton _, ?_⟩
    intro y hy hy1
    rcases List.mem_singleton.mp hy1 with rfl
    exact hd (List.any_eq_true.mpr ⟨m.pool_id, hy, (pool_identifier_eq_iff _ _).mpr rfl⟩)

theorem mem_foldl_record (msgs : List PoolUpdateMessage)
    (acc : List PoolIdentifier) (x : PoolIdentifier) :
    x ∈ msgs.foldl (fun acc m => maybe_record_slot0_resync_pool m acc) acc ↔
      x ∈ acc ∨ ∃ m ∈ msgs, m.is_revert = true ∧ needs_resync m.update = true
        ∧ m.pool_id = x := by
  induction msgs generalizing acc with
  | nil => simp
  | cons m msgs ih =>
      rw [List.foldl_cons, ih, mem_maybe_record]
      constructor
      · rintro ((h | h) | ⟨q, hq, hprop⟩)
        · exact Or.inl h
        · exact Or.inr ⟨m, List.mem_cons_self _ _, h⟩
        · exact Or.inr ⟨q, List.mem_cons_of_mem _ hq, hprop⟩
      · rintro (h | ⟨q, hq, hprop⟩)
        · exact Or.inl (Or.inl h)
        · rcases List.mem_cons.mp hq with rfl | hq
          · exact Or.inl (Or.inr hprop)
          · exact Or.inr ⟨q, hq, hprop⟩

theorem nodup_foldl_record (msgs : List PoolUpdateMessage)
    (acc : List PoolIdentifier) (h : acc.Nodup) :
    (msgs.foldl (fun acc m => maybe_record_slot0_resync_pool m acc) acc).Nodup := by
  induction msgs generalizing acc with
  | nil => exact h
  | cons m msgs ih => exact ih _ (nodup_maybe_record m acc h)

/-- C3: in the slot0_resync_required list attached at ReorgComplete, a pool
identifier appears exactly once when some revert V3Swap/V4Swap update of
the batch carries it and zero times otherwise, and the list is sorted by
the deterministic key order (every Address-variant identifier precedes
every PoolId-variant identifier, and within a variant identifiers are in
byte-lexicographic, i.e. numeric, order). -/
theorem c3_slot0_resync_exactly_once_sorted (msgs : List PoolUpdateMessage)
    (x : PoolIdentifier) :
    List.Sorted sortKeyLE (slot0_resync_list msgs) ∧
    (slot0_resync_list msgs).count x =
      (if msgs.any (fun m => m.is_revert && needs_resync m.update
          && pool_identifier_eq m.pool_id x) then 1 else 0) := by
  constructor
  · exact List.sorted_insertionSort sortKeyLE _
  · have hperm : List.Perm (slot0_resync_list msgs)
        (msgs.foldl (fun acc m => maybe_record_slot0_resync_pool m acc) []) :=
      List.perm_insertionSort sortKeyLE _
    rw [hperm.count_eq]
    have hmem := mem_foldl_record msgs [] x
    have hnodup := nodup_foldl_record msgs [] List.nodup_nil
    by_cases hx : msgs.any (fun m => m.is_revert && needs_resync m.update
        && pool_identifier_eq m.pool_id x)
    · rw [if_pos hx]
      rcases List.any_eq_true.mp hx with ⟨m, hm, hprop⟩
      rw [Bool.and_assoc, Bool.and_eq_true, Bool.and_eq_true] at hprop
      refine List.count_eq_one_of_mem hnodup ?_
      exact hmem.mpr (Or.inr ⟨m, hm, hprop.1, hprop.2.1,
        (pool_identifier_eq_iff _ _).mp hprop.2.2⟩)
    · rw [if_neg hx]
      refine List.count_eq_zero.mpr ?_
      intro hcon
      rcases hmem.mp hcon with h | ⟨m, hm, h1, h2, h3⟩
      · exact absurd h (List.not_mem_nil x)
      · refine hx (List.any_eq_true.mpr ⟨m, hm, ?_⟩)
        rw [Bool.and_assoc, Bool.and_eq_true, Bool.and_eq_true]
        exact ⟨h1, h2, (pool_identifier_eq_iff _ _).mpr h3⟩

/-- C4 counterexample: a decoded V2 Swap with amount0In = 0 and
amount0Out = 2^255 (a legal U256 log value whose negation is exactly
I256::MIN and therefore representable) yields amount0 = 0, not
-amount0Out: I256::try_from fails above I256::MAX and unwrap_or
substitutes zero before negating. -/
theorem c4_counterexample :
    (create_pool_update (DecodedEvent.V2Swap 7 0 5 (2 ^ 255) 0) 1 2 3 4 false).map
        (fun m => m.update) = some (PoolUpdate.V2Swap 0 5) ∧
    (0 : Int) ≠ -(2 ^ 255 : Int) := by
  constructor
  · simp only [create_pool_update, i256_from_u256_or_zero, I256_MAX]
    norm_num
  · norm_num

theorem i256_from_u256_or_zero_of_le (u : Nat) (h : u ≤ 2 ^ 255 - 1) :
    i256_from_u256_or_zero u = (u : Int) := by
  rw [i256_from_u256_or_zero, if_pos]
  have h2 : ((u : Nat) : Int) ≤ ((2 ^ 255 - 1 : Nat) : Int) := Int.ofNat_le.mpr h
  have h3 : ((2 ^ 255 - 1 : Nat) : Int) = I256_MAX := by
    rw [I256_MAX]
    norm_num
  rw [h3] at h2
  exact h2

/-- C4 amended: for every decoded V2 Swap event whose unsigned amounts do
not exceed I256::MAX = 2^255 - 1, the emitted V2Swap delta satisfies the
claimed sign convention exactly (an amount above I256::MAX is instead
mapped to zero by unwrap_or(I256::ZERO), refuting the unrestricted
claim). -/
theorem c4_v2_swap_sign_convention (pool a0in a1in a0out a1out : Nat)
    (bn ts ti li : Nat) (rev : Bool)
    (h0i : a0in ≤ 2 ^ 255 - 1) (h1i : a1in ≤ 2 ^ 255 - 1)
    (h0o : a0out ≤ 2 ^ 255 - 1) (h1o : a1out ≤ 2 ^ 255 - 1) :
    create_pool_update (DecodedEvent.V2Swap pool a0in a1in a0out a1out) bn ts ti li rev =
      some
        { pool_id := PoolIdentifier.Address pool
          protocol := Protocol.UniswapV2
          update_type := UpdateType.Swap
          block_number := bn
          block_timestamp := ts
          tx_index := ti
          log_index := li
          is_revert := rev
          update :=
            if a0in = 0 then PoolUpdate.V2Swap (-(a0out : Int)) (a1in : Int)
            else PoolUpdate.V2Swap (a0in : Int) (-(a1out : Int)) } := by
  have c0i := i256_from_u256_or_zero_of_le a0in h0i
  have c1i := i256_from_u256_or_zero_of_le a1in h1i
  have c0o := i256_from_u256_or_zero_of_le a0out h0o
  have c1o := i256_from_u256_or_zero_of_le a1out h1o
  by_cases h0 : a0in = 0 <;>
    simp [create_pool_update, h0, c0i, c1i, c0o, c1o]

/-- Witness for c4_v2_swap_sign_convention at the concrete mainnet-style
swap of the specification: amount0In = 0, amount1In = 4965441256,
amount0Out = 1512537406709823118, amount1Out = 0. -/
theorem c4_v2_swap_sign_convention_witness :
    (1512537406709823118 : Nat) ≤ 2 ^ 255 - 1 ∧
    (4965441256 : Nat) ≤ 2 ^ 255 - 1 ∧
    create_pool_update (DecodedEvent.V2Swap 7 0 4965441256 1512537406709823118 0)
        23741637 1730000000 0 0 false =
      some
        { pool_id := PoolIdentifier.Address 7
          protocol := Protocol.UniswapV2
          update_type := UpdateType.Swap
          block_number := 23741637
          block_timestamp := 1730000000
          tx_index := 0
          log_index := 0
          is_revert := false
          update := PoolUpdate.V2Swap (-1512537406709823118) 4965441256 } := by
  refine ⟨by norm_num, by norm_num, ?_⟩
  have h := c4_v2_swap_sign_convention 7 0 4965441256 1512537406709823118 0
    23741637 1730000000 0 0 false (by norm_num) (by norm_num) (by norm_num) (by norm_num)
  rw [h]
  norm_num

/-- C7 counterexample: the in-range value i128::MIN = -(2^127) is not
preserved: the code produces -(i128::MAX) = -(2^127) + 1.  Consequently
the negative saturation point is -(i128::MAX), not i128::MIN, either. -/
theorem c7_counterexample :
    v4_liquidity_delta_narrow (-(2 ^ 127)) = -(2 ^ 127 - 1) ∧
    (-(2 ^ 127 : Int)) ≠ -(2 ^ 127 - 1) ∧
    -(2 ^ 255 : Int) < -(2 ^ 127) ∧
    -(2 ^ 127 : Int) ≤ -(2 ^ 127) ∧ (-(2 ^ 127) : Int) ≤ 2 ^ 127 - 1 := by
  refine ⟨?_, by norm_num, by norm_num, le_refl _, by norm_num⟩
  rw [v4_liquidity_delta_narrow, if_neg (by norm_num)]
  simp only [saturating_to_u128, U128_MAX, I128_MAX]
  rw [if_neg (by omega)]

/-- C7 amended: for every decoded V4 ModifyLiquidity event with
liquidityDelta d in the representable negation range -(2^255) < d < 2^255,
the narrowing preserves every value of [-(i128::MAX), i128::MAX] =
[-(2^127)+1, 2^127-1] exactly, maps every value above i128::MAX to
i128::MAX, and maps every value below -(i128::MAX), including i128::MIN
itself, to -(i128::MAX) = i128::MIN + 1 (not i128::MIN); no failure is
possible.  (The claimed warning is also absent: this code path logs
nothing.) -/
theorem c7_v4_narrowing_saturates (d : Int)
    (hlo : -(2 ^ 255) < d) (hhi : d < 2 ^ 255) :
    (-(2 ^ 127 - 1) ≤ d → d ≤ 2 ^ 127 - 1 → v4_liquidity_delta_narrow d = d) ∧
    (2 ^ 127 - 1 < d → v4_liquidity_delta_narrow d = 2 ^ 127 - 1) ∧
    (d < -(2 ^ 127 - 1) → v4_liquidity_delta_narrow d = -(2 ^ 127 - 1)) := by
  refine ⟨fun h1 h2 => ?_, fun h1 => ?_, fun h1 => ?_⟩
  · by_cases h0 : 0 ≤ d
    · rw [v4_liquidity_delta_narrow, if_pos h0]
      simp only [saturating_to_u128, U128_MAX, I128_MAX]
      rw [if_pos (by omega)]
      omega
    · rw [v4_liquidity_delta_narrow, if_neg h0]
      simp only [saturating_to_u128, U128_MAX, I128_MAX]
      rw [if_pos (by omega)]
      omega
  · rw [v4_liquidity_delta_narrow, if_pos (by omega)]
    simp only [saturating_to_u128, U128_MAX, I128_MAX]
    rw [if_neg (by omega)]
  · rw [v4_liquidity_delta_narrow, if_neg (by omega)]
    simp only [saturating_to_u128, U128_MAX, I128_MAX]
    rw [if_neg (by omega)]

/-- Witness for c7_v4_narrowing_saturates at d = -5. -/
theorem c7_v4_narrowing_saturates_witness :
    -(2 ^ 255 : Int) < -5 ∧ (-5 : Int) < 2 ^ 255 ∧
    (-(2 ^ 127 - 1) ≤ (-5 : Int) → (-5 : Int) ≤ 2 ^ 127 - 1 →
      v4_liquidity_delta_narrow (-5) = -5) := by
  refine ⟨by norm_num, by norm_num, ?_⟩
  exact (c7_v4_narrowing_saturates (-5) (by norm_num) (by norm_num)).1

/-- C8 counterexample: a remove message with mismatched array lengths is
not failed; it converts successfully into a Remove update carrying the
parsed pool identifier, which the subscription task then hands to the Pool
Tracker, where it removes the pool if tracked. -/
theorem c8_counterexample :
    c8_message.pools.length ≠ c8_message.protocols.length ∧
    convert_to_pool_update c8_message =
      Except.ok (WhitelistUpdate.Remove
        [PoolIdentifier.Address 0xB4e16d0168e52d35CaCD2c6185b44281Ec28C9Dc]) := by
  exact ⟨by decide, rfl⟩

/-- C8 amended: for every inbound whitelist message other than a remove
message (add, full, and unknown types treated as full), a length mismatch
between the pools and protocols arrays fails the message with an error, so
no WhitelistUpdate is handed to the Pool Tracker and no state changes; a
remove message, however, never consults the protocols array and converts
successfully regardless of the mismatch. -/
theorem c8_length_mismatch_fails (message : WhitelistPoolMessage)
    (hty : message.message_type ≠ "remove")
    (hlen : message.pools.length ≠ message.protocols.length) :
    convert_to_pool_update message =
      Except.error (message.pools.length, message.protocols.length) := by
  rw [convert_to_pool_update]
  by_cases hadd : message.message_type = "add"
  · rw [if_pos hadd, parse_pool_addresses, if_pos hlen]
    rfl
  · rw [if_neg hadd, if_neg hty, parse_pool_addresses, if_pos hlen]
    rfl

/-- Witness for c8_length_mismatch_fails: an add message with one pool and
no protocol tags errors with the two lengths. -/
theorem c8_length_mismatch_fails_witness :
    ({ c8_message with message_type := "add" } : WhitelistPoolMessage).message_type ≠ "remove" ∧
    ({ c8_message with message_type := "add" } : WhitelistPoolMessage).pools.length ≠
      ({ c8_message with message_type := "add" } : WhitelistPoolMessage).protocols.length ∧
    convert_to_pool_update { c8_message with message_type := "add" } =
      Except.error (1, 0) :=
  ⟨by decide, by decide,
    c8_length_mismatch_fails { c8_message with message_type := "add" } (by decide) (by decide)⟩

/-- C5 counterexample: a Reorged notification is acknowledged: processing
it sends exactly one FinishedHeight event carrying the new chain tip,
because committed_chain is some for ChainReorged, contradicting the claim
that only Committed notifications are acknowledged. -/
theorem c5_counterexample :
    finished_height_events
        (ExExNotification.ChainReorged { tip_number := 1, tip_hash := 2 }
          { tip_number := 3, tip_hash := 4 }) = [(3, 4)] ∧
    finished_height_events
        (ExExNotification.ChainReorged { tip_number := 1, tip_hash := 2 }
          { tip_number := 3, tip_hash := 4 }) ≠ [] := by
  exact ⟨rfl, by decide⟩

/-- C5 amended: processing a Committed notification is followed by exactly
one acknowledgement carrying the tip (number, hash); processing a Reorged
notification is likewise followed by exactly one acknowledgement, carrying
the new chain tip; only a Reverted notification produces no
acknowledgement. -/
theorem c5_acknowledgements (n : ExExNotification) :
    finished_height_events n =
      (match n with
       | ExExNotification.ChainCommitted c => [(c.tip_number, c.tip_hash)]
       | ExExNotification.ChainReorged _ c => [(c.tip_number, c.tip_hash)]
       | ExExNotification.ChainReverted _ => []) := by
  cases n <;> rfl

/-- C6 evaluation at the failing frames: under the enum committed in
src/src/types.rs, the stream-sequenced variants serialize with
discriminants 6 (BeginBlockV2), 7 (PoolUpdateV2), 8 (EndBlockV2),
9 (ReorgStart) and 10 (ReorgComplete) - not 1, 2, 3, 6 and 7 as the claim
(and the producer code in main.rs, which constructs sequenced BeginBlock,
PoolUpdate and EndBlock variants that do not exist in this enum) expects;
only UpdateWhitelist = 0, Ping = 4 and Pong = 5 agree. -/
theorem c6_discriminants_diverge :
    serialized_head (ControlMessage.ReorgStart 1 c6_range c6_range) = [9, 0, 0, 0] ∧
    serialized_head (ControlMessage.BeginBlockV2 1 2 3 false) = [6, 0, 0, 0] ∧
    serialized_head (ControlMessage.PoolUpdateV2 1 c6_msg) = [7, 0, 0, 0] ∧
    serialized_head (ControlMessage.EndBlockV2 1 2 3) = [8, 0, 0, 0] ∧
    serialized_head (ControlMessage.ReorgComplete 1 2 []) = [10, 0, 0, 0] ∧
    serialized_head (ControlMessage.UpdateWhitelist
      { chain := "ethereum", generated_at := "t", pools := [] }) = [0, 0, 0, 0] ∧
    serialized_head ControlMessage.Ping = [4, 0, 0, 0] ∧
    serialized_head ControlMessage.Pong = [5, 0, 0, 0] ∧
    ([9, 0, 0, 0] : List Nat) ≠ [6, 0, 0, 0] := by
  refine ⟨rfl, rfl, rfl, rfl, rfl, rfl, rfl, rfl, by decide⟩
